import Mathlib

/-!
Verification of the `go-jplaw-api-v2` repository: a Go client generator for
the Japan Law API v2 (`cmd/clientgen/openapi.go`, `cmd/clientgen/main.go`)
together with the generated runtime client (`client.go`).

Strings are modelled as `List Char`.  The inputs relevant to the claims
(schema names, operation identifiers, query keys and values, HTTP bodies)
are ASCII, where Go's byte-wise string operations and `strings.ToUpper` /
`strings.ToLower` agree with the per-character model used here
(`Char.toUpper` / `Char.toLower` act on the basic latin range exactly like
Go's case mapping on ASCII).
-/

/-- Strings, modelled as lists of characters. -/
abbrev Str := List Char

/-! ## Naming engine (`cmd/clientgen/openapi.go`) -/

/-- The separator predicate passed to `strings.FieldsFunc` in `toPascalCase`:
`c == '_' || c == '-' || c == ' '`. -/
def isSep (c : Char) : Bool := c == '_' || c == '-' || c == ' '

/-- Model of Go's `strings.FieldsFunc s isSep`: the maximal runs of
non-separator characters of `s`, in order (empty runs do not occur). -/
def fieldsFunc : Str → List Str
  | [] => []
  | c :: cs =>
    if isSep c then fieldsFunc cs
    else
      match cs with
      | [] => [[c]]
      | d :: _ =>
        if isSep d then [c] :: fieldsFunc cs
        else
          match fieldsFunc cs with
          | [] => [[c]]
          | w :: ws => (c :: w) :: ws

/-- One word's transformation in `toPascalCase`:
`strings.ToUpper(string(word[0])) + strings.ToLower(word[1:])`. -/
def capWord : Str → Str
  | [] => []
  | c :: r => c.toUpper :: r.map Char.toLower

/-- `toPascalCase` from `cmd/clientgen/openapi.go`: early return on the empty
string; split into words with `strings.FieldsFunc`; upper-case each word's
first character and lower-case the rest (guarded by `word != ""`); join. -/
def toPascalCase (s : Str) : Str :=
  if s = [] then []
  else ((fieldsFunc s).map (fun w => if w ≠ [] then capWord w else w)).flatten

/-- Splitter keeping empty segments, used to state the spec's description of
PascalCase ("split `s` on `_`, `-`, and space") and to model Go's
`strings.Split` (which also keeps empty segments). -/
def splitP (P : Char → Bool) : Str → List Str
  | [] => [[]]
  | c :: cs =>
    if P c then [] :: splitP P cs
    else
      match splitP P cs with
      | [] => [[c]]
      | w :: ws => (c :: w) :: ws

/-- The spec's description of the PascalCase transform, stated independently
of the source: split `s` on `_`, `-`, and space; for each non-empty
resulting word keep its first character upper-cased and all subsequent
characters lower-cased; concatenate.  (`capWord []` is `[]`, so empty
segments from the split contribute nothing, exactly the "non-empty word"
side condition.) -/
def pascalSpec (s : Str) : Str :=
  ((splitP isSep s).map capWord).flatten

/-- Model of `strings.Split(ref, "/")` followed by `parts[len(parts)-1]`:
`splitP` on `/` never returns an empty list, so the last element is total. -/
def lastSegment (r : Str) : Str :=
  (splitP (fun c => c == '/') r).getLastD []

/-! ### Character-level lemmas -/

theorem char_toNat_ofNat (n : Nat) (h : n.isValidChar) : (Char.ofNat n).toNat = n := by
  simp [Char.ofNat, dif_pos h, Char.ofNatAux, Char.toNat, UInt32.toNat]

theorem char_toNat_ofNat_lt (n : Nat) (h : n < 55296) : (Char.ofNat n).toNat = n :=
  char_toNat_ofNat n (Or.inl h)

theorem toUpper_idem (c : Char) : c.toUpper.toUpper = c.toUpper := by
  unfold Char.toUpper
  by_cases h : c.toNat ≥ 97 ∧ c.toNat ≤ 122
  · rw [if_pos h]
    have h2 : (Char.ofNat (c.toNat - 32)).toNat = c.toNat - 32 :=
      char_toNat_ofNat_lt _ (by omega)
    rw [if_neg (by omega)]
  · rw [if_neg h, if_neg h]

theorem toLower_idem (c : Char) : c.toLower.toLower = c.toLower := by
  unfold Char.toLower
  by_cases h : c.toNat ≥ 65 ∧ c.toNat ≤ 90
  · rw [if_pos h]
    have h2 : (Char.ofNat (c.toNat + 32)).toNat = c.toNat + 32 :=
      char_toNat_ofNat_lt _ (by omega)
    rw [if_neg (by omega)]
  · rw [if_neg h, if_neg h]

theorem char_beq_eq_toNat_beq (c d : Char) : (c == d) = (c.toNat == d.toNat) := by
  cases hb : c == d
  · cases hn : c.toNat == d.toNat
    · rfl
    · have hn' : c.toNat = d.toNat := by simpa using hn
      have he : c = d := Char.ext (UInt32.toNat.inj hn')
      subst he; simp at hb
  · have he : c = d := eq_of_beq hb
    subst he; simp

theorem isSep_eq_toNat (c : Char) :
    isSep c = (c.toNat == 95 || c.toNat == 45 || c.toNat == 32) := by
  simp only [isSep, char_beq_eq_toNat_beq]
  rfl

theorem isSep_toUpper (c : Char) : isSep c.toUpper = isSep c := by
  unfold Char.toUpper
  by_cases h : c.toNat ≥ 97 ∧ c.toNat ≤ 122
  · rw [if_pos h]
    have h2 : (Char.ofNat (c.toNat - 32)).toNat = c.toNat - 32 :=
      char_toNat_ofNat_lt _ (by omega)
    rw [isSep_eq_toNat, isSep_eq_toNat, h2]
    have e1 : (c.toNat - 32 == 95) = false := by simp; omega
    have e2 : (c.toNat - 32 == 45) = false := by simp; omega
    have e3 : (c.toNat - 32 == 32) = false := by simp; omega
    have f1 : (c.toNat == 95) = false := by simp; omega
    have f2 : (c.toNat == 45) = false := by simp; omega
    have f3 : (c.toNat == 32) = false := by simp; omega
    rw [e1, e2, e3, f1, f2, f3]
  · rw [if_neg h]

theorem isSep_toLower (c : Char) : isSep c.toLower = isSep c := by
  unfold Char.toLower
  by_cases h : c.toNat ≥ 65 ∧ c.toNat ≤ 90
  · rw [if_pos h]
    have h2 : (Char.ofNat (c.toNat + 32)).toNat = c.toNat + 32 :=
      char_toNat_ofNat_lt _ (by omega)
    rw [isSep_eq_toNat, isSep_eq_toNat, h2]
    have e1 : (c.toNat + 32 == 95) = false := by simp; omega
    have e2 : (c.toNat + 32 == 45) = false := by simp; omega
    have e3 : (c.toNat + 32 == 32) = false := by simp; omega
    have f1 : (c.toNat == 95) = false := by simp; omega
    have f2 : (c.toNat == 45) = false := by simp; omega
    have f3 : (c.toNat == 32) = false := by simp; omega
    rw [e1, e2, e3, f1, f2, f3]
  · rw [if_neg h]

/-! ### Splitting lemmas -/

theorem splitP_ne_nil (P : Char → Bool) (l : Str) : splitP P l ≠ [] := by
  cases l with
  | nil => simp [splitP]
  | cons c cs =>
    unfold splitP
    by_cases h : P c
    · simp [h]
    · simp only [h, if_false]
      cases splitP P cs <;> simp

theorem mem_splitP_sepFree (P : Char → Bool) (l : Str) :
    ∀ w ∈ splitP P l, ∀ c ∈ w, P c = false := by
  induction l with
  | nil => intro w hw; simp [splitP] at hw; simp [hw]
  | cons c cs ih =>
    intro w hw
    unfold splitP at hw
    by_cases h : P c
    · simp only [h, if_true] at hw
      rcases List.mem_cons.mp hw with he | hm
      · simp [he]
      · exact ih w hm
    · simp only [h, if_false] at hw
      cases hs : splitP P cs with
      | nil => exact absurd hs (splitP_ne_nil P cs)
      | cons v vs =>
        rw [hs] at hw
        rcases List.mem_cons.mp hw with he | hm
        · subst he
          intro d hd
          rcases List.mem_cons.mp hd with he2 | hm2
          · subst he2; simpa using h
          · exact ih v (by rw [hs]; exact List.mem_cons_self v vs) d hm2
        · exact ih w (by rw [hs]; exact List.mem_cons_of_mem v hm)

theorem fieldsFunc_cons_cons_nonsep {c d : Char} (hc : isSep c = false)
    (hd : isSep d = false) (cs' : Str) :
    fieldsFunc (c :: d :: cs') =
      match fieldsFunc (d :: cs') with
      | [] => [[c]]
      | w :: ws => (c :: w) :: ws := by
  conv_lhs => rw [fieldsFunc.eq_def]
  simp [hc, hd]

theorem fieldsFunc_eq_filter (l : Str) :
    fieldsFunc l = (splitP isSep l).filter (fun w => w ≠ []) := by
  induction l with
  | nil => simp [fieldsFunc, splitP]
  | cons c cs ih =>
    by_cases h : isSep c
    · simp only [fieldsFunc, splitP, h, if_true]
      rw [ih]
      simp
    · cases cs with
      | nil => simp [fieldsFunc, splitP, h]
      | cons d cs' =>
        by_cases hd : isSep d
        · have hsp : splitP isSep (c :: d :: cs') = [c] :: splitP isSep cs' := by
            simp [splitP, h, hd]
          have hsp2 : splitP isSep (d :: cs') = [] :: splitP isSep cs' := by
            simp [splitP, hd]
          have hf : fieldsFunc (c :: d :: cs') = [c] :: fieldsFunc (d :: cs') := by
            simp [fieldsFunc, h, hd]
          rw [hf, hsp, ih, hsp2]
          simp
        · cases hs : splitP isSep cs' with
          | nil => exact absurd hs (splitP_ne_nil isSep cs')
          | cons w ws =>
            have hsp2 : splitP isSep (d :: cs') = (d :: w) :: ws := by
              simp [splitP, hd, hs]
            have hsp : splitP isSep (c :: d :: cs') = (c :: d :: w) :: ws := by
              simp [splitP, h, hd, hs]
            have ihf : fieldsFunc (d :: cs') = (d :: w) :: ws.filter (fun v => v ≠ []) := by
              rw [ih, hsp2]
              simp
            have hf : fieldsFunc (c :: d :: cs') =
                (c :: d :: w) :: ws.filter (fun v => v ≠ []) := by
              rw [fieldsFunc_cons_cons_nonsep (by simpa using h) (by simpa using hd), ihf]
            rw [hf, hsp]
            simp

theorem capWord_eq_guard (w : Str) : (if w ≠ [] then capWord w else w) = capWord w := by
  cases w <;> simp [capWord]

theorem flatten_map_capWord_filter (L : List Str) :
    ((L.filter (fun w => w ≠ [])).map capWord).flatten = (L.map capWord).flatten := by
  induction L with
  | nil => rfl
  | cons w ws ih =>
    by_cases h : w = []
    · subst h; simpa [capWord] using ih
    · simp only [ne_eq, decide_not] at ih ⊢
      simp [h, ih]

theorem mem_capWord_sepFree {w : Str} (hw : ∀ c ∈ w, isSep c = false) :
    ∀ c ∈ capWord w, isSep c = false := by
  cases w with
  | nil => simp [capWord]
  | cons a r =>
    intro c hc
    rcases List.mem_cons.mp hc with he | hm
    · subst he; rw [isSep_toUpper]; exact hw a (List.mem_cons_self a r)
    · rcases List.mem_map.mp hm with ⟨d, hd, he⟩
      rw [← he, isSep_toLower]
      exact hw d (List.mem_cons_of_mem a hd)

theorem toPascalCase_sepFree (s : Str) : ∀ c ∈ toPascalCase s, isSep c = false := by
  intro c hc
  unfold toPascalCase at hc
  by_cases h : s = []
  · simp [h] at hc
  · rw [if_neg h] at hc
    rcases List.mem_flatten.mp hc with ⟨w', hw', hcw⟩
    rcases List.mem_map.mp hw' with ⟨w, hw, he⟩
    subst he
    have hwsep : ∀ d ∈ w, isSep d = false := by
      rw [fieldsFunc_eq_filter] at hw
      exact mem_splitP_sepFree isSep s w (List.mem_of_mem_filter hw)
    rw [capWord_eq_guard] at hcw
    exact mem_capWord_sepFree hwsep c hcw

theorem fieldsFunc_single {t : Str} (hne : t ≠ []) (hsep : ∀ c ∈ t, isSep c = false) :
    fieldsFunc t = [t] := by
  induction t with
  | nil => exact absurd rfl hne
  | cons c cs ih =>
    have hc : isSep c = false := hsep c (List.mem_cons_self c cs)
    cases cs with
    | nil => simp [fieldsFunc, hc]
    | cons d cs' =>
      have hd : isSep d = false := hsep d (by simp)
      have ih' : fieldsFunc (d :: cs') = [d :: cs'] :=
        ih (by simp) (fun x hx => hsep x (List.mem_cons_of_mem c hx))
      rw [fieldsFunc_cons_cons_nonsep hc hd, ih']

theorem toPascalCase_of_sepFree {t : Str} (hsep : ∀ c ∈ t, isSep c = false) :
    toPascalCase t = capWord t := by
  by_cases h : t = []
  · subst h; simp [toPascalCase, capWord]
  · unfold toPascalCase
    rw [if_neg h, fieldsFunc_single h hsep]
    simp [capWord_eq_guard, h]

theorem capWord_idem (w : Str) : capWord (capWord w) = capWord w := by
  cases w with
  | nil => rfl
  | cons c r =>
    simp only [capWord, toUpper_idem, List.map_map, List.cons.injEq, true_and]
    exact List.map_congr_left (fun a _ => toLower_idem a)

/-! ## Spec model (`cmd/clientgen/openapi.go`) -/

/-- Stand-in for Go's `interface{}` values stored in a parsed YAML document
(the `Enum` element type and the `Example` field of `Schema`). -/
inductive YamlValue : Type where
  | str (s : Str)
  | int (n : Int)
  | bool (b : Bool)
  | null

/-- The `Schema` struct of `cmd/clientgen/openapi.go`: `Type`, `Format`,
`Description`, `Properties`, `Items`, `Enum`, `Required`, `Ref` (`$ref`),
`Example`, `AllOf`, `OneOf`, `AnyOf`.  Maps are represented as association
lists and pointers as `Option`. -/
inductive Schema : Type where
  | mk
    (type : Str)
    (format : Str)
    (description : Str)
    (properties : List (Str × Schema))
    (items : Option Schema)
    (enum : List YamlValue)
    (required : List Str)
    (ref : Str)
    (exampleVal : Option YamlValue)
    (allOf : List Schema)
    (oneOf : List Schema)
    (anyOf : List Schema)

def Schema.type : Schema → Str
  | .mk ty _ _ _ _ _ _ _ _ _ _ _ => ty

def Schema.format : Schema → Str
  | .mk _ fmt _ _ _ _ _ _ _ _ _ _ => fmt

def Schema.properties : Schema → List (Str × Schema)
  | .mk _ _ _ props _ _ _ _ _ _ _ _ => props

def Schema.items : Schema → Option Schema
  | .mk _ _ _ _ items _ _ _ _ _ _ _ => items

def Schema.enum : Schema → List YamlValue
  | .mk _ _ _ _ _ en _ _ _ _ _ _ => en

def Schema.ref : Schema → Str
  | .mk _ _ _ _ _ _ _ r _ _ _ _ => r

def Schema.allOf : Schema → List Schema
  | .mk _ _ _ _ _ _ _ _ _ ao _ _ => ao

/-- The `for _, schema := range s.AllOf` loop in `Schema.GoType`: the `$ref`
of the first `allOf` member whose `$ref` is non-empty (the loop body only
fires inside `if len(s.AllOf) > 0`, but on an empty list the loop does
nothing, so the guard is behaviourally redundant). -/
def firstAllOfRef : List Schema → Option Str
  | [] => none
  | s :: rest => if s.ref ≠ [] then some s.ref else firstAllOfRef rest

/-- The body of `Schema.GoType` from `cmd/clientgen/openapi.go`, with the
one recursive occurrence (`"[]" + s.Items.GoType()` in the `array` case)
abstracted as the pre-computed `itemsType`: `$ref` first, then the first
referencing `allOf` member, then the `switch` on the primitive type.  The
Go `switch`'s cases are distinct literals, so the if-chain below has
identical first-match semantics. -/
def goTypeCore (ty fmt : Str) (props : List (Str × Schema)) (en : List YamlValue)
    (ref : Str) (ao : List Schema) (itemsType : Option Str) : Str :=
  if ref ≠ [] then toPascalCase (lastSegment ref)
  else
    match firstAllOfRef ao with
    | some r => toPascalCase (lastSegment r)
    | none =>
      if ty = "string".data then
        if en.length > 0 then "string".data
        else if fmt = "date-time".data then "DateTime".data
        else if fmt = "date".data then "Date".data
        else "string".data
      else if ty = "integer".data then
        if fmt = "int32".data then "int32".data
        else if fmt = "int64".data then "int64".data
        else "int".data
      else if ty = "number".data then
        if fmt = "float".data then "float32".data
        else if fmt = "double".data then "float64".data
        else "float64".data
      else if ty = "boolean".data then "bool".data
      else if ty = "array".data then
        match itemsType with
        | some t => "[]".data ++ t
        | none => "[]interface\x7b\x7d".data
      else if ty = "object".data then
        if props.length = 0 then "map[string]interface\x7b\x7d".data
        else "interface\x7b\x7d".data
      else "interface\x7b\x7d".data

/-- `Schema.GoType`: `goTypeCore` applied to the schema's fields, recursing
into `Items` (the source computes `s.Items.GoType()` lazily inside the
`array` switch arm; computing it up front yields the same value). -/
def Schema.GoType : Schema → Str
  | .mk ty fmt _ds props none en _req ref _ex ao _oo _an =>
      goTypeCore ty fmt props en ref ao none
  | .mk ty fmt _ds props (some i) en _req ref _ex ao _oo _an =>
      goTypeCore ty fmt props en ref ao (some (Schema.GoType i))

/-- The `Parameter` struct (`Name`, `In`, `Description`, `Required`,
`Schema`); the Go field `In` is a reserved word in Lean and is called
`inLoc` here. -/
structure Parameter where
  name : Str
  inLoc : Str
  description : Str
  required : Bool
  schema : Option Schema

/-- The `MediaType` struct. -/
structure MediaType where
  schema : Option Schema

/-- The `RequestBody` struct. -/
structure RequestBody where
  description : Str
  required : Bool
  content : List (Str × MediaType)

/-- The `Response` struct. -/
structure Response where
  description : Str
  content : List (Str × MediaType)

/-- The `Operation` struct. -/
structure Operation where
  operationID : Str
  summary : Str
  description : Str
  tags : List Str
  parameters : List Parameter
  requestBody : Option RequestBody
  responses : List (Str × Response)

/-- `Operation.GetMethodName`: PascalCase of the operation identifier with
`-` pre-replaced by `_` (`strings.ReplaceAll(id, "-", "_")` is a per-character
substitution because both pattern and replacement are single characters);
the literal `"UnknownOperation"` when the identifier is empty. -/
def Operation.GetMethodName (op : Operation) : Str :=
  if op.operationID ≠ [] then
    toPascalCase (op.operationID.map (fun c => if c == '-' then '_' else c))
  else "UnknownOperation".data

/-- The `Info` struct. -/
structure Info where
  title : Str
  description : Str
  version : Str

/-- The `Server` struct. -/
structure Server where
  url : Str

/-- The `PathItem` struct: up to one `Operation` per HTTP verb. -/
structure PathItem where
  get : Option Operation
  post : Option Operation
  put : Option Operation
  delete : Option Operation

/-- The `Components` struct: the named-schema component set. -/
structure Components where
  schemas : List (Str × Schema)

/-- The `OpenAPISpec` root struct. -/
structure OpenAPISpec where
  openapi : Str
  info : Info
  servers : List Server
  paths : List (Str × PathItem)
  components : Components

/-! ## Claims about the naming engine -/

/-- C2, counterexample: the PascalCase transform is not idempotent.
`toPascalCase "foo_bar" = "FooBar"`, but a second application collapses the
interior capital: `toPascalCase "FooBar" = "Foobar"`. -/
theorem C2_counterexample :
    toPascalCase (toPascalCase ("foo_bar".data)) ≠ toPascalCase ("foo_bar".data) := by
  decide

/-- C2, amended: one application of `toPascalCase` is not a fixed point in
general, but a second application is: for every string `s`,
`toPascalCase (toPascalCase (toPascalCase s)) = toPascalCase (toPascalCase s)`. -/
theorem C2_pascal_double_stable (s : Str) :
    toPascalCase (toPascalCase (toPascalCase s)) = toPascalCase (toPascalCase s) := by
  have hu := toPascalCase_sepFree s
  rw [toPascalCase_of_sepFree hu, toPascalCase_of_sepFree (mem_capWord_sepFree hu)]
  exact capWord_idem _

/-- C8: `toPascalCase` splits on `_`, `-`, and space, upper-cases each
non-empty word's first character, lower-cases the rest, and concatenates
(`pascalSpec` states this independently of the source's `FieldsFunc`-based
splitting); in particular the single mixed-case word `lawId` collapses to
`Lawid`. -/
theorem C8_pascal_characterisation :
    (∀ s : Str, toPascalCase s = pascalSpec s) ∧
    toPascalCase ("lawId".data) = "Lawid".data := by
  constructor
  · intro s
    unfold toPascalCase pascalSpec
    by_cases h : s = []
    · subst h; simp [splitP, capWord]
    · rw [if_neg h, fieldsFunc_eq_filter]
      simp only [capWord_eq_guard]
      exact flatten_map_capWord_filter _
  · decide

/-- C5: the generated method name is the PascalCase of the operation
identifier with `-` replaced by `_`; identifier `get-law-data` yields
`GetLawData`; every operation with an empty identifier yields the same
literal `UnknownOperation`. -/
theorem C5_method_name :
    (∀ op : Operation, op.operationID ≠ [] →
        op.GetMethodName
          = toPascalCase (op.operationID.map (fun c => if c == '-' then '_' else c))) ∧
    (∀ op : Operation, op.operationID = "get-law-data".data →
        op.GetMethodName = "GetLawData".data) ∧
    (∀ op : Operation, op.operationID = [] →
        op.GetMethodName = "UnknownOperation".data) ∧
    (∀ op1 op2 : Operation, op1.operationID = [] → op2.operationID = [] →
        op1.GetMethodName = op2.GetMethodName) := by
  have h1 : ∀ op : Operation, op.operationID ≠ [] →
      op.GetMethodName
        = toPascalCase (op.operationID.map (fun c => if c == '-' then '_' else c)) := by
    intro op h
    unfold Operation.GetMethodName
    rw [if_pos h]
  have h3 : ∀ op : Operation, op.operationID = [] →
      op.GetMethodName = "UnknownOperation".data := by
    intro op h
    unfold Operation.GetMethodName
    rw [h]
    simp
  refine ⟨h1, ?_, h3, fun o1 o2 e1 e2 => by rw [h3 o1 e1, h3 o2 e2]⟩
  intro op h
  unfold Operation.GetMethodName
  rw [h, if_pos (by decide : ("get-law-data".data : Str) ≠ [])]
  decide

/-- C5 witness: a concrete operation with identifier `get-law-data` gets the
method name `GetLawData`. -/
theorem C5_method_name_witness :
    (Operation.mk ("get-law-data".data) [] [] [] [] none []).GetMethodName
      = "GetLawData".data :=
  C5_method_name.2.1 _ rfl

/-! ## Claims about the type resolver -/

theorem goType_mk (ty fmt ds : Str) (props : List (Str × Schema)) (items : Option Schema)
    (en : List YamlValue) (req : List Str) (ref : Str) (ex : Option YamlValue)
    (ao oo an : List Schema) :
    (Schema.mk ty fmt ds props items en req ref ex ao oo an).GoType
      = goTypeCore ty fmt props en ref ao (items.map Schema.GoType) := by
  cases items <;> rfl

theorem goType_of_ref (s : Schema) (hr : s.ref ≠ []) :
    s.GoType = toPascalCase (lastSegment s.ref) := by
  cases s with
  | mk ty fmt ds props items en req ref ex ao oo an =>
    simp only [Schema.ref] at hr
    simp only [Schema.ref]
    rw [goType_mk]
    unfold goTypeCore
    rw [if_pos hr]

/-- C4: a non-empty `$ref` takes precedence over every other schema field:
the resolved type name is the PascalCase of the last `/`-segment of the
reference; hence references whose last segments PascalCase differently
resolve to different type names. -/
theorem C4_ref_precedence :
    (∀ s : Schema, s.ref ≠ [] → s.GoType = toPascalCase (lastSegment s.ref)) ∧
    (∀ s1 s2 : Schema, s1.ref ≠ [] → s2.ref ≠ [] →
        toPascalCase (lastSegment s1.ref) ≠ toPascalCase (lastSegment s2.ref) →
        s1.GoType ≠ s2.GoType) :=
  ⟨goType_of_ref, fun s1 s2 h1 h2 hne => by
    rw [goType_of_ref s1 h1, goType_of_ref s2 h2]; exact hne⟩

/-- C4 witness: two concrete schemas referencing `.../Foo` and `.../Bar`
resolve to different type names. -/
theorem C4_ref_precedence_witness :
    (Schema.mk [] [] [] [] none [] [] ("#/components/schemas/Foo".data) none [] [] []).GoType
      ≠ (Schema.mk [] [] [] [] none [] [] ("#/components/schemas/Bar".data) none [] [] []).GoType :=
  C4_ref_precedence.2 _ _ (by decide) (by decide) (by decide)

theorem firstAllOfRef_of_prefix (pre : List Schema) (m : Schema) (post : List Schema)
    (hpre : ∀ x ∈ pre, x.ref = []) (hm : m.ref ≠ []) :
    firstAllOfRef (pre ++ m :: post) = some m.ref := by
  induction pre with
  | nil => simp [firstAllOfRef, hm]
  | cons a rest ih =>
    have ha : a.ref = [] := hpre a (List.mem_cons_self a rest)
    simp only [List.cons_append, firstAllOfRef, ha]
    simp only [ne_eq, not_true_eq_false, if_false]
    exact ih (fun x hx => hpre x (List.mem_cons_of_mem a hx))

theorem firstAllOfRef_none_of (ao : List Schema) (h : ∀ x ∈ ao, x.ref = []) :
    firstAllOfRef ao = none := by
  induction ao with
  | nil => rfl
  | cons a rest ih =>
    have ha : a.ref = [] := h a (List.mem_cons_self a rest)
    simp only [firstAllOfRef, ha]
    simp only [ne_eq, not_true_eq_false, if_false]
    exact ih (fun x hx => h x (List.mem_cons_of_mem a hx))

/-- C3: with an empty own `$ref` and a non-empty `allOf`, the resolved type
name comes from the first `allOf` member carrying a non-empty `$ref`
(everything after it is ignored); if no member carries a `$ref`, resolution
is exactly what the outer schema's own fields give with `allOf` removed
(the fall-through to the primitive-type dispatch); in particular
`{allOf: [{$ref: .../Foo}, {type: object}]}` resolves to `Foo`. -/
theorem C3_allOf_resolution :
    (∀ (ty fmt ds : Str) props items en req ex
        (pre : List Schema) (m : Schema) (post oo an : List Schema),
        (∀ x ∈ pre, x.ref = []) → m.ref ≠ [] →
        (Schema.mk ty fmt ds props items en req [] ex (pre ++ m :: post) oo an).GoType
          = toPascalCase (lastSegment m.ref)) ∧
    (∀ (ty fmt ds : Str) props items en req ex (ao oo an : List Schema),
        (∀ x ∈ ao, x.ref = []) →
        (Schema.mk ty fmt ds props items en req [] ex ao oo an).GoType
          = (Schema.mk ty fmt ds props items en req [] ex [] oo an).GoType) ∧
    (Schema.mk [] [] [] [] none [] [] [] none
        [Schema.mk [] [] [] [] none [] [] ("#/components/schemas/Foo".data) none [] [] [],
         Schema.mk ("object".data) [] [] [] none [] [] [] none [] [] []] [] []).GoType
      = "Foo".data := by
  refine ⟨?_, ?_, by decide⟩
  · intro ty fmt ds props items en req ex pre m post oo an hpre hm
    rw [goType_mk]
    unfold goTypeCore
    rw [if_neg (by decide : ¬(([] : Str) ≠ [])),
      firstAllOfRef_of_prefix pre m post hpre hm]
  · intro ty fmt ds props items en req ex ao oo an h
    rw [goType_mk, goType_mk]
    unfold goTypeCore
    rw [firstAllOfRef_none_of ao h]
    rfl

/-- C3 witness: instantiating the first conjunct at the concrete
`{allOf: [{$ref: .../Foo}, {type: object}]}` schema. -/
theorem C3_allOf_resolution_witness :
    (Schema.mk [] [] [] [] none [] [] [] none
        ([] ++ (Schema.mk [] [] [] [] none [] [] ("#/components/schemas/Foo".data) none [] [] [])
          :: [Schema.mk ("object".data) [] [] [] none [] [] [] none [] [] []]) [] []).GoType
      = toPascalCase (lastSegment
          (Schema.mk [] [] [] [] none [] [] ("#/components/schemas/Foo".data) none [] [] []).ref) :=
  C3_allOf_resolution.1 [] [] [] [] none [] [] none [] _ _ [] []
    (by intro x hx; cases hx) (by decide)

/-- C6: an `array` schema with empty `$ref` and empty `allOf` resolves to
`[]` followed by the recursive resolution of `items` when `items` is
present, and to `[]interface\x7b\x7d` when `items` is absent; concretely,
`{type: array, items: {type: integer, format: int32}}` resolves to
`[]int32`. -/
theorem C6_array_resolution :
    (∀ (fmt ds : Str) props en req ex (oo an : List Schema) (it : Schema),
        (Schema.mk ("array".data) fmt ds props (some it) en req [] ex [] oo an).GoType
          = "[]".data ++ it.GoType) ∧
    (∀ (fmt ds : Str) props en req ex (oo an : List Schema),
        (Schema.mk ("array".data) fmt ds props none en req [] ex [] oo an).GoType
          = "[]interface\x7b\x7d".data) ∧
    (Schema.mk ("array".data) [] [] [] (some (Schema.mk ("integer".data) ("int32".data)
        [] [] none [] [] [] none [] [] [])) [] [] [] none [] [] []).GoType
      = "[]int32".data := by
  refine ⟨?_, ?_, by decide⟩
  · intro fmt ds props en req ex oo an it
    rw [goType_mk]
    simp [goTypeCore, firstAllOfRef]
  · intro fmt ds props en req ex oo an
    rw [goType_mk]
    simp [goTypeCore, firstAllOfRef]

/-- C7: a `string` schema with empty `$ref` and empty `allOf` resolves to
the generic `string` type whenever `enum` is non-empty, regardless of
format; with an empty `enum`, format `date-time` gives `DateTime`, format
`date` gives `Date`, and every other format gives `string`. -/
theorem C7_string_resolution :
    (∀ (fmt ds : Str) props items (e : YamlValue) (es : List YamlValue) req ex
        (oo an : List Schema),
        (Schema.mk ("string".data) fmt ds props items (e :: es) req [] ex [] oo an).GoType
          = "string".data) ∧
    (∀ (ds : Str) props items req ex (oo an : List Schema),
        (Schema.mk ("string".data) ("date-time".data) ds props items [] req [] ex [] oo an).GoType
          = "DateTime".data) ∧
    (∀ (ds : Str) props items req ex (oo an : List Schema),
        (Schema.mk ("string".data) ("date".data) ds props items [] req [] ex [] oo an).GoType
          = "Date".data) ∧
    (∀ (fmt ds : Str) props items req ex (oo an : List Schema),
        fmt ≠ "date-time".data → fmt ≠ "date".data →
        (Schema.mk ("string".data) fmt ds props items [] req [] ex [] oo an).GoType
          = "string".data) := by
  refine ⟨?_, ?_, ?_, ?_⟩
  · intro fmt ds props items e es req ex oo an
    rw [goType_mk]
    simp [goTypeCore, firstAllOfRef]
  · intro ds props items req ex oo an
    rw [goType_mk]
    simp [goTypeCore, firstAllOfRef]
  · intro ds props items req ex oo an
    rw [goType_mk]
    simp [goTypeCore, firstAllOfRef]
  · intro fmt ds props items req ex oo an h1 h2
    rw [goType_mk]
    simp [goTypeCore, firstAllOfRef, h1, h2]

/-- C7 witness: a concrete `string` schema with format `uri`, empty enum,
empty `$ref` and empty `allOf` resolves to the generic `string` type. -/
theorem C7_string_resolution_witness :
    (Schema.mk ("string".data) ("uri".data) [] [] none [] [] [] none [] [] []).GoType
      = "string".data :=
  C7_string_resolution.2.2.2 ("uri".data) [] [] none [] none [] [] (by decide) (by decide)

/-! ## Deterministic key ordering (`GetSortedSchemas` / `GetSortedPaths`) -/

/-- Byte-wise lexicographic `≤` on strings, as `sort.Strings` uses (UTF-8
byte order coincides with code-point order). -/
def lexLeB : Str → Str → Bool
  | [], _ => true
  | _ :: _, [] => false
  | a :: as, b :: bs => a.toNat < b.toNat || (a.toNat == b.toNat && lexLeB as bs)

/-- The ordering relation of `sort.Strings`. -/
def lexLe (a b : Str) : Prop := lexLeB a b = true

instance : DecidableRel lexLe := fun a b => inferInstanceAs (Decidable (lexLeB a b = true))

theorem char_eq_of_toNat_eq {c d : Char} (h : c.toNat = d.toNat) : c = d :=
  Char.ext (UInt32.toNat.inj h)

theorem lexLe_total_thm : ∀ a b : Str, lexLe a b ∨ lexLe b a := by
  intro a
  induction a with
  | nil => intro b; left; rfl
  | cons x xs ih =>
    intro b
    cases b with
    | nil => right; rfl
    | cons y ys =>
      unfold lexLe lexLeB
      simp only [Bool.or_eq_true, decide_eq_true_eq, Bool.and_eq_true, beq_iff_eq]
      rcases Nat.lt_trichotomy x.toNat y.toNat with h | h | h
      · left; left; exact h
      · rcases ih ys with h2 | h2
        · left; right; exact ⟨h, h2⟩
        · right; right; exact ⟨h.symm, h2⟩
      · right; left; exact h

theorem lexLe_trans_thm : ∀ a b c : Str, lexLe a b → lexLe b c → lexLe a c := by
  intro a
  induction a with
  | nil => intro b c _ _; rfl
  | cons x xs ih =>
    intro b c h1 h2
    cases b with
    | nil => exact absurd h1 (by unfold lexLe lexLeB; simp)
    | cons y ys =>
      cases c with
      | nil => exact absurd h2 (by unfold lexLe lexLeB; simp)
      | cons z zs =>
        unfold lexLe lexLeB at h1 h2 ⊢
        simp only [Bool.or_eq_true, decide_eq_true_eq, Bool.and_eq_true, beq_iff_eq] at h1 h2 ⊢
        rcases h1 with h1 | ⟨h1e, h1r⟩
        · rcases h2 with h2 | ⟨h2e, _⟩
          · left; omega
          · left; omega
        · rcases h2 with h2 | ⟨h2e, h2r⟩
          · left; omega
          · right; exact ⟨by omega, ih ys zs h1r h2r⟩

theorem lexLe_antisymm_thm : ∀ a b : Str, lexLe a b → lexLe b a → a = b := by
  intro a
  induction a with
  | nil =>
    intro b _ h2
    cases b with
    | nil => rfl
    | cons y ys => exact absurd h2 (by unfold lexLe lexLeB; simp)
  | cons x xs ih =>
    intro b h1 h2
    cases b with
    | nil => exact absurd h1 (by unfold lexLe lexLeB; simp)
    | cons y ys =>
      unfold lexLe lexLeB at h1 h2
      simp only [Bool.or_eq_true, decide_eq_true_eq, Bool.and_eq_true, beq_iff_eq] at h1 h2
      rcases h1 with h1 | ⟨h1e, h1r⟩
      · rcases h2 with h2 | ⟨h2e, _⟩ <;> omega
      · rcases h2 with h2 | ⟨h2e, h2r⟩
        · omega
        · rw [char_eq_of_toNat_eq h1e, ih ys h1r h2r]

instance : IsTotal Str lexLe := ⟨lexLe_total_thm⟩

instance : IsTrans Str lexLe := ⟨fun a b c => lexLe_trans_thm a b c⟩

instance : IsAntisymm Str lexLe := ⟨fun a b => lexLe_antisymm_thm a b⟩

/-- Model of `sort.Strings`: sort a list of strings ascending in `lexLe`. -/
def sortStrings (l : List Str) : List Str := List.insertionSort lexLe l

/-- `OpenAPISpec.GetSortedSchemas`: collect the keys of the component-schema
mapping (map iteration, here the association-list order) and sort them. -/
def OpenAPISpec.GetSortedSchemas (spec : OpenAPISpec) : List Str :=
  sortStrings (spec.components.schemas.map Prod.fst)

/-- `OpenAPISpec.GetSortedPaths`: collect the keys of the paths mapping and
sort them. -/
def OpenAPISpec.GetSortedPaths (spec : OpenAPISpec) : List Str :=
  sortStrings (spec.paths.map Prod.fst)

theorem sortStrings_perm (l : List Str) : (sortStrings l).Perm l :=
  List.perm_insertionSort lexLe l

theorem sortStrings_sorted (l : List Str) : List.Sorted lexLe (sortStrings l) :=
  List.sorted_insertionSort lexLe l

theorem sortStrings_eq_of_perm {l1 l2 : List Str} (h : l1.Perm l2) :
    sortStrings l1 = sortStrings l2 :=
  List.eq_of_perm_of_sorted ((sortStrings_perm l1).trans (h.trans (sortStrings_perm l2).symm))
    (sortStrings_sorted l1) (sortStrings_sorted l2)

/-- C10: `GetSortedSchemas` returns exactly the keys of the component-schema
mapping (a permutation of the key list, without duplicates when the keys are
distinct, as Go map keys are -- so each key appears exactly once), sorted
ascending in byte-wise lexicographic order, and the result depends only on
the multiset of keys, not on the iteration order; likewise `GetSortedPaths`
for the paths mapping. -/
theorem C10_sorted_keys :
    (∀ sp : OpenAPISpec,
        (sp.GetSortedSchemas).Perm (sp.components.schemas.map Prod.fst) ∧
        List.Sorted lexLe sp.GetSortedSchemas) ∧
    (∀ sp : OpenAPISpec, (sp.components.schemas.map Prod.fst).Nodup →
        (sp.GetSortedSchemas).Nodup) ∧
    (∀ sp1 sp2 : OpenAPISpec,
        (sp1.components.schemas.map Prod.fst).Perm (sp2.components.schemas.map Prod.fst) →
        sp1.GetSortedSchemas = sp2.GetSortedSchemas) ∧
    (∀ sp : OpenAPISpec,
        (sp.GetSortedPaths).Perm (sp.paths.map Prod.fst) ∧
        List.Sorted lexLe sp.GetSortedPaths) ∧
    (∀ sp : OpenAPISpec, (sp.paths.map Prod.fst).Nodup →
        (sp.GetSortedPaths).Nodup) ∧
    (∀ sp1 sp2 : OpenAPISpec,
        (sp1.paths.map Prod.fst).Perm (sp2.paths.map Prod.fst) →
        sp1.GetSortedPaths = sp2.GetSortedPaths) :=
  ⟨fun _ => ⟨sortStrings_perm _, sortStrings_sorted _⟩,
    fun _ hnd => ((sortStrings_perm _).nodup_iff).mpr hnd,
    fun _ _ h => sortStrings_eq_of_perm h,
    fun _ => ⟨sortStrings_perm _, sortStrings_sorted _⟩,
    fun _ hnd => ((sortStrings_perm _).nodup_iff).mpr hnd,
    fun _ _ h => sortStrings_eq_of_perm h⟩

/-- C10 witness: two concrete specifications whose schema mappings hold the
same keys in different orders produce the same sorted key list. -/
theorem C10_sorted_keys_witness :
    (OpenAPISpec.mk [] (Info.mk [] [] []) [] []
        (Components.mk [("b".data, Schema.mk [] [] [] [] none [] [] [] none [] [] []),
          ("a".data, Schema.mk [] [] [] [] none [] [] [] none [] [] [])])).GetSortedSchemas
      = (OpenAPISpec.mk [] (Info.mk [] [] []) [] []
        (Components.mk [("a".data, Schema.mk [] [] [] [] none [] [] [] none [] [] []),
          ("b".data, Schema.mk [] [] [] [] none [] [] [] none [] [] [])])).GetSortedSchemas :=
  C10_sorted_keys.2.2.1 _ _ (by decide)

/-! ## Generated runtime client (`client.go`) -/

/-- `fmt.Sprintf("%v", i)` for a Go integer: its decimal rendering. -/
def fmtInt (i : Int) : Str := (toString i).data

/-- `fmt.Sprintf("%v", b)` for a Go bool: `true` or `false`. -/
def fmtBool (b : Bool) : Str := if b then "true".data else "false".data

/-- Model of `net/url`'s `url.Values` (`map[string][]string`) as an
association list; keys stay unique because entries are only created through
`urlValuesSet` / `urlValuesAdd` starting from `[]`, and `Encode` sorts keys,
so the entry order carries no meaning, exactly like Go's unordered map. -/
abbrev UrlValues := List (Str × List Str)

/-- `url.Values` lookup `v[key]` (a missing key holds the empty slice). -/
def urlValuesGet : UrlValues → Str → List Str
  | [], _ => []
  | (k', vs) :: rest, k => if k' = k then vs else urlValuesGet rest k

/-- `url.Values.Set`: replace the key's values with the one value. -/
def urlValuesSet : UrlValues → Str → Str → UrlValues
  | [], k, v => [(k, [v])]
  | (k', vs) :: rest, k, v =>
    if k' = k then (k', [v]) :: rest else (k', vs) :: urlValuesSet rest k v

/-- `url.Values.Add`: append the value to the key's slice. -/
def urlValuesAdd : UrlValues → Str → Str → UrlValues
  | [], k, v => [(k, [v])]
  | (k', vs) :: rest, k, v =>
    if k' = k then (k', vs ++ [v]) :: rest else (k', vs) :: urlValuesAdd rest k v

def upperHexDigit (n : Nat) : Char := ("0123456789ABCDEF".data).getD n '0'

/-- Go's `url.QueryEscape` on one character: space becomes `+`, the
unreserved characters `A-Z a-z 0-9 - _ . ~` stay, everything else is
percent-encoded with upper-case hex (byte-wise; for the ASCII data handled
by this client a character is one byte). -/
def queryEscapeChar (c : Char) : Str :=
  if c = ' ' then ['+']
  else if ('A' ≤ c ∧ c ≤ 'Z') ∨ ('a' ≤ c ∧ c ≤ 'z') ∨ ('0' ≤ c ∧ c ≤ '9')
      ∨ c = '-' ∨ c = '_' ∨ c = '.' ∨ c = '~' then [c]
  else ['%', upperHexDigit (c.toNat / 16), upperHexDigit (c.toNat % 16)]

def queryEscape (s : Str) : Str := (s.map queryEscapeChar).flatten

/-- `url.Values.Encode`: keys sorted ascending, and for each key each of its
values in slice order, as `escapedKey=escapedValue` pairs joined by `&`. -/
def urlValuesEncode (q : UrlValues) : Str :=
  List.intercalate ['&']
    (((sortStrings (q.map Prod.fst)).map
        (fun k => (urlValuesGet q k).map
          (fun v => queryEscape k ++ '=' :: queryEscape v))).flatten)

/-- One `if params.X != nil { queryParams.Set(key, fmt.Sprintf("%v", *params.X)) }`
block of a generated method. -/
def optSet {α : Type} (q : UrlValues) (k : Str) (o : Option α) (f : α → Str) : UrlValues :=
  match o with
  | some v => urlValuesSet q k (f v)
  | none => q

/-- One `if params.X != nil { for _, v := range *params.X { queryParams.Add(key, fmt.Sprintf("%v", v)) } }`
block of a generated method. -/
def optAddEach {α : Type} (q : UrlValues) (k : Str) (o : Option (List α)) (f : α → Str) : UrlValues :=
  match o with
  | some l => l.foldl (fun acc v => urlValuesAdd acc k (f v)) q
  | none => q

/-- `GetAttachmentParams`.  Here and below, the generated enum and date
types referenced by the parameter structs (`Date`, `LawNumEra`, `LawType`,
`CategoryCd`, `ResponseFormat`, `Elm`, `AmendmentType`, `Mission`,
`RepealStatus`, `CurrentRevisionStatus`, ...) live in the generated
`types.go`, which is not part of the sources; they are string-valued named
types, so they are modelled as `Str` and `fmt.Sprintf("%v", x)` on them is
the identity. -/
structure GetAttachmentParams where
  src : Option Str

/-- The query-construction part of `Client.GetAttachment`. -/
def getAttachmentQuery (p : GetAttachmentParams) : UrlValues :=
  optSet ([] : UrlValues) ("src".data) p.src id

/-- `GetKeywordParams` (field order as in `client.go`). -/
structure GetKeywordParams where
  keyword : Str
  lawNum : Option Str
  lawNumEra : Option Str
  lawNumNum : Option Str
  lawNumType : Option Str
  lawNumYear : Option Int
  lawType : Option (List Str)
  asof : Option Str
  categoryCd : Option (List Str)
  promulgationDateFrom : Option Str
  promulgationDateTo : Option Str
  limit : Option Int
  offset : Option Int
  order : Option Str
  responseFormat : Option Str
  sentencesLimit : Option Int
  sentenceTextSize : Option Int
  highlightTag : Option Str

/-- The query-construction part of `Client.GetKeyword`, with the `Set`/`Add`
calls in source order (`keyword` is required and always set). -/
def getKeywordQuery (p : GetKeywordParams) : UrlValues :=
  let q : UrlValues := []
  let q := urlValuesSet q ("keyword".data) p.keyword
  let q := optSet q ("law_num".data) p.lawNum id
  let q := optSet q ("law_num_era".data) p.lawNumEra id
  let q := optSet q ("law_num_num".data) p.lawNumNum id
  let q := optSet q ("law_num_type".data) p.lawNumType id
  let q := optSet q ("law_num_year".data) p.lawNumYear fmtInt
  let q := optAddEach q ("law_type".data) p.lawType id
  let q := optSet q ("asof".data) p.asof id
  let q := optAddEach q ("category_cd".data) p.categoryCd id
  let q := optSet q ("promulgation_date_from".data) p.promulgationDateFrom id
  let q := optSet q ("promulgation_date_to".data) p.promulgationDateTo id
  let q := optSet q ("limit".data) p.limit fmtInt
  let q := optSet q ("offset".data) p.offset fmtInt
  let q := optSet q ("order".data) p.order id
  let q := optSet q ("response_format".data) p.responseFormat id
  let q := optSet q ("sentences_limit".data) p.sentencesLimit fmtInt
  let q := optSet q ("sentence_text_size".data) p.sentenceTextSize fmtInt
  let q := optSet q ("highlight_tag".data) p.highlightTag id
  q

/-- `GetLawDataParams`. -/
structure GetLawDataParams where
  lawFullTextFormat : Option Str
  asof : Option Str
  elm : Option Str
  omitAmendmentSupplProvision : Option Bool
  includeAttachedFileContent : Option Bool
  responseFormat : Option Str

/-- The query-construction part of `Client.GetLawData`. -/
def getLawDataQuery (p : GetLawDataParams) : UrlValues :=
  let q : UrlValues := []
  let q := optSet q ("law_full_text_format".data) p.lawFullTextFormat id
  let q := optSet q ("asof".data) p.asof id
  let q := optSet q ("elm".data) p.elm id
  let q := optSet q ("omit_amendment_suppl_provision".data) p.omitAmendmentSupplProvision fmtBool
  let q := optSet q ("include_attached_file_content".data) p.includeAttachedFileContent fmtBool
  let q := optSet q ("response_format".data) p.responseFormat id
  q

/-- `GetLawFileParams`. -/
structure GetLawFileParams where
  asof : Option Str

/-- The query-construction part of `Client.GetLawFile`. -/
def getLawFileQuery (p : GetLawFileParams) : UrlValues :=
  optSet ([] : UrlValues) ("asof".data) p.asof id

/-- `GetRevisionsParams` (field order as in `client.go`). -/
structure GetRevisionsParams where
  lawTitle : Option Str
  lawTitleKana : Option Str
  amendmentDateFrom : Option Str
  amendmentDateTo : Option Str
  amendmentLawId : Option Str
  amendmentLawNum : Option Str
  amendmentLawTitle : Option Str
  amendmentLawTitleKana : Option Str
  amendmentPromulgateDateFrom : Option Str
  amendmentPromulgateDateTo : Option Str
  amendmentType : Option (List Str)
  categoryCd : Option (List Str)
  currentRevisionStatus : Option (List Str)
  mission : Option (List Str)
  remainInForce : Option Bool
  repealDateFrom : Option Str
  repealDateTo : Option Str
  repealStatus : Option (List Str)
  updatedFrom : Option Str
  updatedTo : Option Str
  responseFormat : Option Str

/-- The query-construction part of `Client.GetRevisions`, in source order. -/
def getRevisionsQuery (p : GetRevisionsParams) : UrlValues :=
  let q : UrlValues := []
  let q := optSet q ("law_title".data) p.lawTitle id
  let q := optSet q ("law_title_kana".data) p.lawTitleKana id
  let q := optSet q ("amendment_date_from".data) p.amendmentDateFrom id
  let q := optSet q ("amendment_date_to".data) p.amendmentDateTo id
  let q := optSet q ("amendment_law_id".data) p.amendmentLawId id
  let q := optSet q ("amendment_law_num".data) p.amendmentLawNum id
  let q := optSet q ("amendment_law_title".data) p.amendmentLawTitle id
  let q := optSet q ("amendment_law_title_kana".data) p.amendmentLawTitleKana id
  let q := optSet q ("amendment_promulgate_date_from".data) p.amendmentPromulgateDateFrom id
  let q := optSet q ("amendment_promulgate_date_to".data) p.amendmentPromulgateDateTo id
  let q := optAddEach q ("amendment_type".data) p.amendmentType id
  let q := optAddEach q ("category_cd".data) p.categoryCd id
  let q := optAddEach q ("current_revision_status".data) p.currentRevisionStatus id
  let q := optAddEach q ("mission".data) p.mission id
  let q := optSet q ("remain_in_force".data) p.remainInForce fmtBool
  let q := optSet q ("repeal_date_from".data) p.repealDateFrom id
  let q := optSet q ("repeal_date_to".data) p.repealDateTo id
  let q := optAddEach q ("repeal_status".data) p.repealStatus id
  let q := optSet q ("updated_from".data) p.updatedFrom id
  let q := optSet q ("updated_to".data) p.updatedTo id
  let q := optSet q ("response_format".data) p.responseFormat id
  q

/-- `GetLawsParams` (field order as in `client.go`). -/
structure GetLawsParams where
  lawId : Option Str
  lawNum : Option Str
  lawNumEra : Option Str
  lawNumNum : Option Str
  lawNumType : Option Str
  lawNumYear : Option Int
  lawTitle : Option Str
  lawTitleKana : Option Str
  lawType : Option (List Str)
  amendmentLawId : Option Str
  asof : Option Str
  categoryCd : Option (List Str)
  mission : Option (List Str)
  omitCurrentRevisionInfo : Option Bool
  promulgationDateFrom : Option Str
  promulgationDateTo : Option Str
  repealStatus : Option (List Str)
  limit : Option Int
  offset : Option Int
  order : Option Str
  responseFormat : Option Str

/-- The query-construction part of `Client.GetLaws`, in source order. -/
def getLawsQuery (p : GetLawsParams) : UrlValues :=
  let q : UrlValues := []
  let q := optSet q ("law_id".data) p.lawId id
  let q := optSet q ("law_num".data) p.lawNum id
  let q := optSet q ("law_num_era".data) p.lawNumEra id
  let q := optSet q ("law_num_num".data) p.lawNumNum id
  let q := optSet q ("law_num_type".data) p.lawNumType id
  let q := optSet q ("law_num_year".data) p.lawNumYear fmtInt
  let q := optSet q ("law_title".data) p.lawTitle id
  let q := optSet q ("law_title_kana".data) p.lawTitleKana id
  let q := optAddEach q ("law_type".data) p.lawType id
  let q := optSet q ("amendment_law_id".data) p.amendmentLawId id
  let q := optSet q ("asof".data) p.asof id
  let q := optAddEach q ("category_cd".data) p.categoryCd id
  let q := optAddEach q ("mission".data) p.mission id
  let q := optSet q ("omit_current_revision_info".data) p.omitCurrentRevisionInfo fmtBool
  let q := optSet q ("promulgation_date_from".data) p.promulgationDateFrom id
  let q := optSet q ("promulgation_date_to".data) p.promulgationDateTo id
  let q := optAddEach q ("repeal_status".data) p.repealStatus id
  let q := optSet q ("limit".data) p.limit fmtInt
  let q := optSet q ("offset".data) p.offset fmtInt
  let q := optSet q ("order".data) p.order id
  let q := optSet q ("response_format".data) p.responseFormat id
  q

/-- `fmt.Errorf("API error %d: %s", resp.StatusCode, string(body))`.  An
HTTP status code is non-negative, so the status is modelled as `Nat`; `%d`
is its decimal rendering and `%s` the body verbatim. -/
def apiErrorMsg (status : Nat) (body : Str) : Str :=
  "API error ".data ++ (Nat.repr status).data ++ ": ".data ++ body

/-- The response-handling tail of `Client.GetAttachment` as a function of
the HTTP status code and body: status `>= 400` is the API-error branch,
otherwise the raw body is returned as the result string.  (Transport and
read errors are I/O effects outside this model.) -/
def getAttachmentRespond (status : Nat) (body : Str) : Except Str Str :=
  if 400 ≤ status then Except.error (apiErrorMsg status body)
  else Except.ok body

/-- The response-handling tail of `Client.GetLawFile` (same shape as
`GetAttachment`: raw body on success). -/
def getLawFileRespond (status : Nat) (body : Str) : Except Str Str :=
  if 400 ≤ status then Except.error (apiErrorMsg status body)
  else Except.ok body

/-- The response-handling tail of `Client.GetKeyword`.  The result type
`KeywordResponse` and its JSON decoding live in the generated `types.go` /
`encoding/json`, outside the sources, so they are abstracted as the type
parameter `α` and the `decode` function (whose error is wrapped as
`failed to decode response: ...`). -/
def getKeywordRespond {α : Type} (decode : Str → Except Str α)
    (status : Nat) (body : Str) : Except Str α :=
  if 400 ≤ status then Except.error (apiErrorMsg status body)
  else
    match decode body with
    | Except.ok r => Except.ok r
    | Except.error e => Except.error ("failed to decode response: ".data ++ e)

/-- The response-handling tail of `Client.GetLawData` (decodes into
`LawDataResponse`, abstracted as `α`). -/
def getLawDataRespond {α : Type} (decode : Str → Except Str α)
    (status : Nat) (body : Str) : Except Str α :=
  if 400 ≤ status then Except.error (apiErrorMsg status body)
  else
    match decode body with
    | Except.ok r => Except.ok r
    | Except.error e => Except.error ("failed to decode response: ".data ++ e)

/-- The response-handling tail of `Client.GetRevisions` (decodes into
`LawRevisionsResponse`, abstracted as `α`). -/
def getRevisionsRespond {α : Type} (decode : Str → Except Str α)
    (status : Nat) (body : Str) : Except Str α :=
  if 400 ≤ status then Except.error (apiErrorMsg status body)
  else
    match decode body with
    | Except.ok r => Except.ok r
    | Except.error e => Except.error ("failed to decode response: ".data ++ e)

/-- The response-handling tail of `Client.GetLaws` (decodes into
`LawsResponse`, abstracted as `α`). -/
def getLawsRespond {α : Type} (decode : Str → Except Str α)
    (status : Nat) (body : Str) : Except Str α :=
  if 400 ≤ status then Except.error (apiErrorMsg status body)
  else
    match decode body with
    | Except.ok r => Except.ok r
    | Except.error e => Except.error ("failed to decode response: ".data ++ e)

/-- C1: for each of the six generated client methods, a response with a
numeric status code `>= 400` makes the method return the error branch (no
result) carrying `API error <status>: <body>`; that message contains the
decimal status code and the response body verbatim (as contiguous
substrings), so in particular a `404` with a non-empty body surfaces the
literal body, not a generic message. -/
theorem C1_api_error :
    (∀ (status : Nat) (body : Str), 400 ≤ status →
        getAttachmentRespond status body = Except.error (apiErrorMsg status body)) ∧
    (∀ (α : Type) (decode : Str → Except Str α) (status : Nat) (body : Str), 400 ≤ status →
        getKeywordRespond decode status body = Except.error (apiErrorMsg status body)) ∧
    (∀ (α : Type) (decode : Str → Except Str α) (status : Nat) (body : Str), 400 ≤ status →
        getLawDataRespond decode status body = Except.error (apiErrorMsg status body)) ∧
    (∀ (status : Nat) (body : Str), 400 ≤ status →
        getLawFileRespond status body = Except.error (apiErrorMsg status body)) ∧
    (∀ (α : Type) (decode : Str → Except Str α) (status : Nat) (body : Str), 400 ≤ status →
        getRevisionsRespond decode status body = Except.error (apiErrorMsg status body)) ∧
    (∀ (α : Type) (decode : Str → Except Str α) (status : Nat) (body : Str), 400 ≤ status →
        getLawsRespond decode status body = Except.error (apiErrorMsg status body)) ∧
    (∀ (status : Nat) (body : Str),
        (Nat.repr status).data <:+: apiErrorMsg status body ∧
        body <:+: apiErrorMsg status body) := by
  refine ⟨fun status body h => ?_, fun α d status body h => ?_, fun α d status body h => ?_,
    fun status body h => ?_, fun α d status body h => ?_, fun α d status body h => ?_,
    fun status body => ⟨?_, ?_⟩⟩
  · unfold getAttachmentRespond; rw [if_pos h]
  · unfold getKeywordRespond; rw [if_pos h]
  · unfold getLawDataRespond; rw [if_pos h]
  · unfold getLawFileRespond; rw [if_pos h]
  · unfold getRevisionsRespond; rw [if_pos h]
  · unfold getLawsRespond; rw [if_pos h]
  · exact ⟨"API error ".data, ": ".data ++ body, by simp [apiErrorMsg]⟩
  · exact ⟨"API error ".data ++ (Nat.repr status).data ++ ": ".data, [], by simp [apiErrorMsg]⟩

/-- C1 witness: a concrete `404` response with body `law not found` yields
the error branch whose message contains that body verbatim. -/
theorem C1_api_error_witness :
    getAttachmentRespond 404 ("law not found".data)
        = Except.error (apiErrorMsg 404 ("law not found".data)) ∧
    ("law not found".data) <:+: apiErrorMsg 404 ("law not found".data) :=
  ⟨C1_api_error.1 404 ("law not found".data) (by decide),
    (C1_api_error.2.2.2.2.2.2 404 ("law not found".data)).2⟩

/-! ### Lemmas about the query collection -/

theorem urlValuesGet_set_ne (k' k : Str) (h : k' ≠ k) (q : UrlValues) (v : Str) :
    urlValuesGet (urlValuesSet q k' v) k = urlValuesGet q k := by
  induction q with
  | nil => simp [urlValuesSet, urlValuesGet, h]
  | cons e rest ih =>
    obtain ⟨ek, evs⟩ := e
    by_cases he : ek = k'
    · subst he
      simp [urlValuesSet, urlValuesGet, h]
    · by_cases hek : ek = k
      · subst hek
        simp [urlValuesSet, urlValuesGet, he]
      · simp [urlValuesSet, urlValuesGet, he, hek, ih]

theorem urlValuesGet_add_ne (k' k : Str) (h : k' ≠ k) (q : UrlValues) (v : Str) :
    urlValuesGet (urlValuesAdd q k' v) k = urlValuesGet q k := by
  induction q with
  | nil => simp [urlValuesAdd, urlValuesGet, h]
  | cons e rest ih =>
    obtain ⟨ek, evs⟩ := e
    by_cases he : ek = k'
    · subst he
      simp [urlValuesAdd, urlValuesGet, h]
    · by_cases hek : ek = k
      · subst hek
        simp [urlValuesAdd, urlValuesGet, he]
      · simp [urlValuesAdd, urlValuesGet, he, hek, ih]

theorem urlValuesGet_add_self (k : Str) (q : UrlValues) (v : Str) :
    urlValuesGet (urlValuesAdd q k v) k = urlValuesGet q k ++ [v] := by
  induction q with
  | nil => simp [urlValuesAdd, urlValuesGet]
  | cons e rest ih =>
    obtain ⟨ek, evs⟩ := e
    by_cases he : ek = k
    · subst he
      simp [urlValuesAdd, urlValuesGet]
    · simp [urlValuesAdd, urlValuesGet, he, ih]

theorem optSet_get_ne {α : Type} (k' k : Str) (h : k' ≠ k) (q : UrlValues)
    (o : Option α) (f : α → Str) :
    urlValuesGet (optSet q k' o f) k = urlValuesGet q k := by
  cases o with
  | none => rfl
  | some v => simp [optSet, urlValuesGet_set_ne k' k h]

theorem foldl_add_get_ne {α : Type} (k' k : Str) (h : k' ≠ k) (f : α → Str)
    (l : List α) (q : UrlValues) :
    urlValuesGet (l.foldl (fun acc v => urlValuesAdd acc k' (f v)) q) k
      = urlValuesGet q k := by
  induction l generalizing q with
  | nil => rfl
  | cons x xs ih =>
    rw [List.foldl_cons, ih, urlValuesGet_add_ne k' k h]

theorem optAddEach_get_ne {α : Type} (k' k : Str) (h : k' ≠ k) (q : UrlValues)
    (o : Option (List α)) (f : α → Str) :
    urlValuesGet (optAddEach q k' o f) k = urlValuesGet q k := by
  cases o with
  | none => rfl
  | some l => simp [optAddEach, foldl_add_get_ne k' k h]

theorem foldl_add_get_self {α : Type} (k : Str) (f : α → Str) (l : List α) (q : UrlValues) :
    urlValuesGet (l.foldl (fun acc v => urlValuesAdd acc k (f v)) q) k
      = urlValuesGet q k ++ l.map f := by
  induction l generalizing q with
  | nil => simp
  | cons x xs ih =>
    rw [List.foldl_cons, ih, urlValuesGet_add_self, List.map_cons, List.append_assoc,
      List.singleton_append]

theorem optAddEach_get_self {α : Type} (k : Str) (q : UrlValues) (l : List α) (f : α → Str) :
    urlValuesGet (optAddEach q k (some l) f) k = urlValuesGet q k ++ l.map f :=
  foldl_add_get_self k f l q

/-! ### The sequence-valued query fields land as repeated keys, in order -/

theorem getKeywordQuery_law_type (p : GetKeywordParams) (l : List Str)
    (hp : p.lawType = some l) :
    urlValuesGet (getKeywordQuery p) ("law_type".data) = l := by
  have n1 : ("keyword".data : Str) ≠ "law_type".data := by decide
  have n2 : ("law_num".data : Str) ≠ "law_type".data := by decide
  have n3 : ("law_num_era".data : Str) ≠ "law_type".data := by decide
  have n4 : ("law_num_num".data : Str) ≠ "law_type".data := by decide
  have n5 : ("law_num_type".data : Str) ≠ "law_type".data := by decide
  have n6 : ("law_num_year".data : Str) ≠ "law_type".data := by decide
  have n7 : ("asof".data : Str) ≠ "law_type".data := by decide
  have n8 : ("category_cd".data : Str) ≠ "law_type".data := by decide
  have n9 : ("promulgation_date_from".data : Str) ≠ "law_type".data := by decide
  have n10 : ("promulgation_date_to".data : Str) ≠ "law_type".data := by decide
  have n11 : ("limit".data : Str) ≠ "law_type".data := by decide
  have n12 : ("offset".data : Str) ≠ "law_type".data := by decide
  have n13 : ("order".data : Str) ≠ "law_type".data := by decide
  have n14 : ("response_format".data : Str) ≠ "law_type".data := by decide
  have n15 : ("sentences_limit".data : Str) ≠ "law_type".data := by decide
  have n16 : ("sentence_text_size".data : Str) ≠ "law_type".data := by decide
  have n17 : ("highlight_tag".data : Str) ≠ "law_type".data := by decide
  simp [getKeywordQuery, hp, optSet_get_ne, optAddEach_get_ne, urlValuesGet_set_ne,
    optAddEach_get_self, urlValuesGet, n1, n2, n3, n4, n5, n6, n7, n8, n9, n10, n11, n12, n13,
    n14, n15, n16, n17]

theorem getKeywordQuery_category_cd (p : GetKeywordParams) (l : List Str)
    (hp : p.categoryCd = some l) :
    urlValuesGet (getKeywordQuery p) ("category_cd".data) = l := by
  have n1 : ("keyword".data : Str) ≠ "category_cd".data := by decide
  have n2 : ("law_num".data : Str) ≠ "category_cd".data := by decide
  have n3 : ("law_num_era".data : Str) ≠ "category_cd".data := by decide
  have n4 : ("law_num_num".data : Str) ≠ "category_cd".data := by decide
  have n5 : ("law_num_type".data : Str) ≠ "category_cd".data := by decide
  have n6 : ("law_num_year".data : Str) ≠ "category_cd".data := by decide
  have n7 : ("law_type".data : Str) ≠ "category_cd".data := by decide
  have n8 : ("asof".data : Str) ≠ "category_cd".data := by decide
  have n9 : ("promulgation_date_from".data : Str) ≠ "category_cd".data := by decide
  have n10 : ("promulgation_date_to".data : Str) ≠ "category_cd".data := by decide
  have n11 : ("limit".data : Str) ≠ "category_cd".data := by decide
  have n12 : ("offset".data : Str) ≠ "category_cd".data := by decide
  have n13 : ("order".data : Str) ≠ "category_cd".data := by decide
  have n14 : ("response_format".data : Str) ≠ "category_cd".data := by decide
  have n15 : ("sentences_limit".data : Str) ≠ "category_cd".data := by decide
  have n16 : ("sentence_text_size".data : Str) ≠ "category_cd".data := by decide
  have n17 : ("highlight_tag".data : Str) ≠ "category_cd".data := by decide
  simp [getKeywordQuery, hp, optSet_get_ne, optAddEach_get_ne, urlValuesGet_set_ne,
    optAddEach_get_self, urlValuesGet, n1, n2, n3, n4, n5, n6, n7, n8, n9, n10, n11, n12, n13,
    n14, n15, n16, n17]

theorem getRevisionsQuery_amendment_type (p : GetRevisionsParams) (l : List Str)
    (hp : p.amendmentType = some l) :
    urlValuesGet (getRevisionsQuery p) ("amendment_type".data) = l := by
  have n1 : ("law_title".data : Str) ≠ "amendment_type".data := by decide
  have n2 : ("law_title_kana".data : Str) ≠ "amendment_type".data := by decide
  have n3 : ("amendment_date_from".data : Str) ≠ "amendment_type".data := by decide
  have n4 : ("amendment_date_to".data : Str) ≠ "amendment_type".data := by decide
  have n5 : ("amendment_law_id".data : Str) ≠ "amendment_type".data := by decide
  have n6 : ("amendment_law_num".data : Str) ≠ "amendment_type".data := by decide
  have n7 : ("amendment_law_title".data : Str) ≠ "amendment_type".data := by decide
  have n8 : ("amendment_law_title_kana".data : Str) ≠ "amendment_type".data := by decide
  have n9 : ("amendment_promulgate_date_from".data : Str) ≠ "amendment_type".data := by decide
  have n10 : ("amendment_promulgate_date_to".data : Str) ≠ "amendment_type".data := by decide
  have n11 : ("category_cd".data : Str) ≠ "amendment_type".data := by decide
  have n12 : ("current_revision_status".data : Str) ≠ "amendment_type".data := by decide
  have n13 : ("mission".data : Str) ≠ "amendment_type".data := by decide
  have n14 : ("remain_in_force".data : Str) ≠ "amendment_type".data := by decide
  have n15 : ("repeal_date_from".data : Str) ≠ "amendment_type".data := by decide
  have n16 : ("repeal_date_to".data : Str) ≠ "amendment_type".data := by decide
  have n17 : ("repeal_status".data : Str) ≠ "amendment_type".data := by decide
  have n18 : ("updated_from".data : Str) ≠ "amendment_type".data := by decide
  have n19 : ("updated_to".data : Str) ≠ "amendment_type".data := by decide
  have n20 : ("response_format".data : Str) ≠ "amendment_type".data := by decide
  simp [getRevisionsQuery, hp, optSet_get_ne, optAddEach_get_ne, urlValuesGet_set_ne,
    optAddEach_get_self, urlValuesGet, n1, n2, n3, n4, n5, n6, n7, n8, n9, n10, n11, n12, n13,
    n14, n15, n16, n17, n18, n19, n20]

theorem getRevisionsQuery_category_cd (p : GetRevisionsParams) (l : List Str)
    (hp : p.categoryCd = some l) :
    urlValuesGet (getRevisionsQuery p) ("category_cd".data) = l := by
  have n1 : ("law_title".data : Str) ≠ "category_cd".data := by decide
  have n2 : ("law_title_kana".data : Str) ≠ "category_cd".data := by decide
  have n3 : ("amendment_date_from".data : Str) ≠ "category_cd".data := by decide
  have n4 : ("amendment_date_to".data : Str) ≠ "category_cd".data := by decide
  have n5 : ("amendment_law_id".data : Str) ≠ "category_cd".data := by decide
  have n6 : ("amendment_law_num".data : Str) ≠ "category_cd".data := by decide
  have n7 : ("amendment_law_title".data : Str) ≠ "category_cd".data := by decide
  have n8 : ("amendment_law_title_kana".data : Str) ≠ "category_cd".data := by decide
  have n9 : ("amendment_promulgate_date_from".data : Str) ≠ "category_cd".data := by decide
  have n10 : ("amendment_promulgate_date_to".data : Str) ≠ "category_cd".data := by decide
  have n11 : ("amendment_type".data : Str) ≠ "category_cd".data := by decide
  have n12 : ("current_revision_status".data : Str) ≠ "category_cd".data := by decide
  have n13 : ("mission".data : Str) ≠ "category_cd".data := by decide
  have n14 : ("remain_in_force".data : Str) ≠ "category_cd".data := by decide
  have n15 : ("repeal_date_from".data : Str) ≠ "category_cd".data := by decide
  have n16 : ("repeal_date_to".data : Str) ≠ "category_cd".data := by decide
  have n17 : ("repeal_status".data : Str) ≠ "category_cd".data := by decide
  have n18 : ("updated_from".data : Str) ≠ "category_cd".data := by decide
  have n19 : ("updated_to".data : Str) ≠ "category_cd".data := by decide
  have n20 : ("response_format".data : Str) ≠ "category_cd".data := by decide
  simp [getRevisionsQuery, hp, optSet_get_ne, optAddEach_get_ne, urlValuesGet_set_ne,
    optAddEach_get_self, urlValuesGet, n1, n2, n3, n4, n5, n6, n7, n8, n9, n10, n11, n12, n13,
    n14, n15, n16, n17, n18, n19, n20]

theorem getRevisionsQuery_current_revision_status (p : GetRevisionsParams) (l : List Str)
    (hp : p.currentRevisionStatus = some l) :
    urlValuesGet (getRevisionsQuery p) ("current_revision_status".data) = l := by
  have n1 : ("law_title".data : Str) ≠ "current_revision_status".data := by decide
  have n2 : ("law_title_kana".data : Str) ≠ "current_revision_status".data := by decide
  have n3 : ("amendment_date_from".data : Str) ≠ "current_revision_status".data := by decide
  have n4 : ("amendment_date_to".data : Str) ≠ "current_revision_status".data := by decide
  have n5 : ("amendment_law_id".data : Str) ≠ "current_revision_status".data := by decide
  have n6 : ("amendment_law_num".data : Str) ≠ "current_revision_status".data := by decide
  have n7 : ("amendment_law_title".data : Str) ≠ "current_revision_status".data := by decide
  have n8 : ("amendment_law_title_kana".data : Str) ≠ "current_revision_status".data := by decide
  have n9 : ("amendment_promulgate_date_from".data : Str) ≠ "current_revision_status".data := by decide
  have n10 : ("amendment_promulgate_date_to".data : Str) ≠ "current_revision_status".data := by decide
  have n11 : ("amendment_type".data : Str) ≠ "current_revision_status".data := by decide
  have n12 : ("category_cd".data : Str) ≠ "current_revision_status".data := by decide
  have n13 : ("mission".data : Str) ≠ "current_revision_status".data := by decide
  have n14 : ("remain_in_force".data : Str) ≠ "current_revision_status".data := by decide
  have n15 : ("repeal_date_from".data : Str) ≠ "current_revision_status".data := by decide
  have n16 : ("repeal_date_to".data : Str) ≠ "current_revision_status".data := by decide
  have n17 : ("repeal_status".data : Str) ≠ "current_revision_status".data := by decide
  have n18 : ("updated_from".data : Str) ≠ "current_revision_status".data := by decide
  have n19 : ("updated_to".data : Str) ≠ "current_revision_status".data := by decide
  have n20 : ("response_format".data : Str) ≠ "current_revision_status".data := by decide
  simp [getRevisionsQuery, hp, optSet_get_ne, optAddEach_get_ne, urlValuesGet_set_ne,
    optAddEach_get_self, urlValuesGet, n1, n2, n3, n4, n5, n6, n7, n8, n9, n10, n11, n12, n13,
    n14, n15, n16, n17, n18, n19, n20]

theorem getRevisionsQuery_mission (p : GetRevisionsParams) (l : List Str)
    (hp : p.mission = some l) :
    urlValuesGet (getRevisionsQuery p) ("mission".data) = l := by
  have n1 : ("law_title".data : Str) ≠ "mission".data := by decide
  have n2 : ("law_title_kana".data : Str) ≠ "mission".data := by decide
  have n3 : ("amendment_date_from".data : Str) ≠ "mission".data := by decide
  have n4 : ("amendment_date_to".data : Str) ≠ "mission".data := by decide
  have n5 : ("amendment_law_id".data : Str) ≠ "mission".data := by decide
  have n6 : ("amendment_law_num".data : Str) ≠ "mission".data := by decide
  have n7 : ("amendment_law_title".data : Str) ≠ "mission".data := by decide
  have n8 : ("amendment_law_title_kana".data : Str) ≠ "mission".data := by decide
  have n9 : ("amendment_promulgate_date_from".data : Str) ≠ "mission".data := by decide
  have n10 : ("amendment_promulgate_date_to".data : Str) ≠ "mission".data := by decide
  have n11 : ("amendment_type".data : Str) ≠ "mission".data := by decide
  have n12 : ("category_cd".data : Str) ≠ "mission".data := by decide
  have n13 : ("current_revision_status".data : Str) ≠ "mission".data := by decide
  have n14 : ("remain_in_force".data : Str) ≠ "mission".data := by decide
  have n15 : ("repeal_date_from".data : Str) ≠ "mission".data := by decide
  have n16 : ("repeal_date_to".data : Str) ≠ "mission".data := by decide
  have n17 : ("repeal_status".data : Str) ≠ "mission".data := by decide
  have n18 : ("updated_from".data : Str) ≠ "mission".data := by decide
  have n19 : ("updated_to".data : Str) ≠ "mission".data := by decide
  have n20 : ("response_format".data : Str) ≠ "mission".data := by decide
  simp [getRevisionsQuery, hp, optSet_get_ne, optAddEach_get_ne, urlValuesGet_set_ne,
    optAddEach_get_self, urlValuesGet, n1, n2, n3, n4, n5, n6, n7, n8, n9, n10, n11, n12, n13,
    n14, n15, n16, n17, n18, n19, n20]

theorem getRevisionsQuery_repeal_status (p : GetRevisionsParams) (l : List Str)
    (hp : p.repealStatus = some l) :
    urlValuesGet (getRevisionsQuery p) ("repeal_status".data) = l := by
  have n1 : ("law_title".data : Str) ≠ "repeal_status".data := by decide
  have n2 : ("law_title_kana".data : Str) ≠ "repeal_status".data := by decide
  have n3 : ("amendment_date_from".data : Str) ≠ "repeal_status".data := by decide
  have n4 : ("amendment_date_to".data : Str) ≠ "repeal_status".data := by decide
  have n5 : ("amendment_law_id".data : Str) ≠ "repeal_status".data := by decide
  have n6 : ("amendment_law_num".data : Str) ≠ "repeal_status".data := by decide
  have n7 : ("amendment_law_title".data : Str) ≠ "repeal_status".data := by decide
  have n8 : ("amendment_law_title_kana".data : Str) ≠ "repeal_status".data := by decide
  have n9 : ("amendment_promulgate_date_from".data : Str) ≠ "repeal_status".data := by decide
  have n10 : ("amendment_promulgate_date_to".data : Str) ≠ "repeal_status".data := by decide
  have n11 : ("amendment_type".data : Str) ≠ "repeal_status".data := by decide
  have n12 : ("category_cd".data : Str) ≠ "repeal_status".data := by decide
  have n13 : ("current_revision_status".data : Str) ≠ "repeal_status".data := by decide
  have n14 : ("mission".data : Str) ≠ "repeal_status".data := by decide
  have n15 : ("remain_in_force".data : Str) ≠ "repeal_status".data := by decide
  have n16 : ("repeal_date_from".data : Str) ≠ "repeal_status".data := by decide
  have n17 : ("repeal_date_to".data : Str) ≠ "repeal_status".data := by decide
  have n18 : ("updated_from".data : Str) ≠ "repeal_status".data := by decide
  have n19 : ("updated_to".data : Str) ≠ "repeal_status".data := by decide
  have n20 : ("response_format".data : Str) ≠ "repeal_status".data := by decide
  simp [getRevisionsQuery, hp, optSet_get_ne, optAddEach_get_ne, urlValuesGet_set_ne,
    optAddEach_get_self, urlValuesGet, n1, n2, n3, n4, n5, n6, n7, n8, n9, n10, n11, n12, n13,
    n14, n15, n16, n17, n18, n19, n20]

theorem getLawsQuery_law_type (p : GetLawsParams) (l : List Str)
    (hp : p.lawType = some l) :
    urlValuesGet (getLawsQuery p) ("law_type".data) = l := by
  have n1 : ("law_id".data : Str) ≠ "law_type".data := by decide
  have n2 : ("law_num".data : Str) ≠ "law_type".data := by decide
  have n3 : ("law_num_era".data : Str) ≠ "law_type".data := by decide
  have n4 : ("law_num_num".data : Str) ≠ "law_type".data := by decide
  have n5 : ("law_num_type".data : Str) ≠ "law_type".data := by decide
  have n6 : ("law_num_year".data : Str) ≠ "law_type".data := by decide
  have n7 : ("law_title".data : Str) ≠ "law_type".data := by decide
  have n8 : ("law_title_kana".data : Str) ≠ "law_type".data := by decide
  have n9 : ("amendment_law_id".data : Str) ≠ "law_type".data := by decide
  have n10 : ("asof".data : Str) ≠ "law_type".data := by decide
  have n11 : ("category_cd".data : Str) ≠ "law_type".data := by decide
  have n12 : ("mission".data : Str) ≠ "law_type".data := by decide
  have n13 : ("omit_current_revision_info".data : Str) ≠ "law_type".data := by decide
  have n14 : ("promulgation_date_from".data : Str) ≠ "law_type".data := by decide
  have n15 : ("promulgation_date_to".data : Str) ≠ "law_type".data := by decide
  have n16 : ("repeal_status".data : Str) ≠ "law_type".data := by decide
  have n17 : ("limit".data : Str) ≠ "law_type".data := by decide
  have n18 : ("offset".data : Str) ≠ "law_type".data := by decide
  have n19 : ("order".data : Str) ≠ "law_type".data := by decide
  have n20 : ("response_format".data : Str) ≠ "law_type".data := by decide
  simp [getLawsQuery, hp, optSet_get_ne, optAddEach_get_ne, urlValuesGet_set_ne,
    optAddEach_get_self, urlValuesGet, n1, n2, n3, n4, n5, n6, n7, n8, n9, n10, n11, n12, n13,
    n14, n15, n16, n17, n18, n19, n20]

theorem getLawsQuery_category_cd (p : GetLawsParams) (l : List Str)
    (hp : p.categoryCd = some l) :
    urlValuesGet (getLawsQuery p) ("category_cd".data) = l := by
  have n1 : ("law_id".data : Str) ≠ "category_cd".data := by decide
  have n2 : ("law_num".data : Str) ≠ "category_cd".data := by decide
  have n3 : ("law_num_era".data : Str) ≠ "category_cd".data := by decide
  have n4 : ("law_num_num".data : Str) ≠ "category_cd".data := by decide
  have n5 : ("law_num_type".data : Str) ≠ "category_cd".data := by decide
  have n6 : ("law_num_year".data : Str) ≠ "category_cd".data := by decide
  have n7 : ("law_title".data : Str) ≠ "category_cd".data := by decide
  have n8 : ("law_title_kana".data : Str) ≠ "category_cd".data := by decide
  have n9 : ("law_type".data : Str) ≠ "category_cd".data := by decide
  have n10 : ("amendment_law_id".data : Str) ≠ "category_cd".data := by decide
  have n11 : ("asof".data : Str) ≠ "category_cd".data := by decide
  have n12 : ("mission".data : Str) ≠ "category_cd".data := by decide
  have n13 : ("omit_current_revision_info".data : Str) ≠ "category_cd".data := by decide
  have n14 : ("promulgation_date_from".data : Str) ≠ "category_cd".data := by decide
  have n15 : ("promulgation_date_to".data : Str) ≠ "category_cd".data := by decide
  have n16 : ("repeal_status".data : Str) ≠ "category_cd".data := by decide
  have n17 : ("limit".data : Str) ≠ "category_cd".data := by decide
  have n18 : ("offset".data : Str) ≠ "category_cd".data := by decide
  have n19 : ("order".data : Str) ≠ "category_cd".data := by decide
  have n20 : ("response_format".data : Str) ≠ "category_cd".data := by decide
  simp [getLawsQuery, hp, optSet_get_ne, optAddEach_get_ne, urlValuesGet_set_ne,
    optAddEach_get_self, urlValuesGet, n1, n2, n3, n4, n5, n6, n7, n8, n9, n10, n11, n12, n13,
    n14, n15, n16, n17, n18, n19, n20]

theorem getLawsQuery_mission (p : GetLawsParams) (l : List Str)
    (hp : p.mission = some l) :
    urlValuesGet (getLawsQuery p) ("mission".data) = l := by
  have n1 : ("law_id".data : Str) ≠ "mission".data := by decide
  have n2 : ("law_num".data : Str) ≠ "mission".data := by decide
  have n3 : ("law_num_era".data : Str) ≠ "mission".data := by decide
  have n4 : ("law_num_num".data : Str) ≠ "mission".data := by decide
  have n5 : ("law_num_type".data : Str) ≠ "mission".data := by decide
  have n6 : ("law_num_year".data : Str) ≠ "mission".data := by decide
  have n7 : ("law_title".data : Str) ≠ "mission".data := by decide
  have n8 : ("law_title_kana".data : Str) ≠ "mission".data := by decide
  have n9 : ("law_type".data : Str) ≠ "mission".data := by decide
  have n10 : ("amendment_law_id".data : Str) ≠ "mission".data := by decide
  have n11 : ("asof".data : Str) ≠ "mission".data := by decide
  have n12 : ("category_cd".data : Str) ≠ "mission".data := by decide
  have n13 : ("omit_current_revision_info".data : Str) ≠ "mission".data := by decide
  have n14 : ("promulgation_date_from".data : Str) ≠ "mission".data := by decide
  have n15 : ("promulgation_date_to".data : Str) ≠ "mission".data := by decide
  have n16 : ("repeal_status".data : Str) ≠ "mission".data := by decide
  have n17 : ("limit".data : Str) ≠ "mission".data := by decide
  have n18 : ("offset".data : Str) ≠ "mission".data := by decide
  have n19 : ("order".data : Str) ≠ "mission".data := by decide
  have n20 : ("response_format".data : Str) ≠ "mission".data := by decide
  simp [getLawsQuery, hp, optSet_get_ne, optAddEach_get_ne, urlValuesGet_set_ne,
    optAddEach_get_self, urlValuesGet, n1, n2, n3, n4, n5, n6, n7, n8, n9, n10, n11, n12, n13,
    n14, n15, n16, n17, n18, n19, n20]

theorem getLawsQuery_repeal_status (p : GetLawsParams) (l : List Str)
    (hp : p.repealStatus = some l) :
    urlValuesGet (getLawsQuery p) ("repeal_status".data) = l := by
  have n1 : ("law_id".data : Str) ≠ "repeal_status".data := by decide
  have n2 : ("law_num".data : Str) ≠ "repeal_status".data := by decide
  have n3 : ("law_num_era".data : Str) ≠ "repeal_status".data := by decide
  have n4 : ("law_num_num".data : Str) ≠ "repeal_status".data := by decide
  have n5 : ("law_num_type".data : Str) ≠ "repeal_status".data := by decide
  have n6 : ("law_num_year".data : Str) ≠ "repeal_status".data := by decide
  have n7 : ("law_title".data : Str) ≠ "repeal_status".data := by decide
  have n8 : ("law_title_kana".data : Str) ≠ "repeal_status".data := by decide
  have n9 : ("law_type".data : Str) ≠ "repeal_status".data := by decide
  have n10 : ("amendment_law_id".data : Str) ≠ "repeal_status".data := by decide
  have n11 : ("asof".data : Str) ≠ "repeal_status".data := by decide
  have n12 : ("category_cd".data : Str) ≠ "repeal_status".data := by decide
  have n13 : ("mission".data : Str) ≠ "repeal_status".data := by decide
  have n14 : ("omit_current_revision_info".data : Str) ≠ "repeal_status".data := by decide
  have n15 : ("promulgation_date_from".data : Str) ≠ "repeal_status".data := by decide
  have n16 : ("promulgation_date_to".data : Str) ≠ "repeal_status".data := by decide
  have n17 : ("limit".data : Str) ≠ "repeal_status".data := by decide
  have n18 : ("offset".data : Str) ≠ "repeal_status".data := by decide
  have n19 : ("order".data : Str) ≠ "repeal_status".data := by decide
  have n20 : ("response_format".data : Str) ≠ "repeal_status".data := by decide
  simp [getLawsQuery, hp, optSet_get_ne, optAddEach_get_ne, urlValuesGet_set_ne,
    optAddEach_get_self, urlValuesGet, n1, n2, n3, n4, n5, n6, n7, n8, n9, n10, n11, n12, n13,
    n14, n15, n16, n17, n18, n19, n20]

/-! ### A key's pairs are contiguous and in order inside the encoded string -/

theorem intercalate_cons_cons (sep x : Str) (l : List Str) (h : l ≠ []) :
    List.intercalate sep (x :: l) = x ++ sep ++ List.intercalate sep l := by
  cases l with
  | nil => exact absurd rfl h
  | cons y ys =>
    unfold List.intercalate
    rw [List.intersperse_cons₂]
    simp [List.append_assoc]

theorem intercalate_prefix (sep : Str) (mid post : List Str) :
    ∃ t, List.intercalate sep (mid ++ post) = List.intercalate sep mid ++ t := by
  induction mid with
  | nil => exact ⟨List.intercalate sep post, by simp [List.intercalate]⟩
  | cons x mid' ih =>
    cases mid' with
    | nil =>
      cases post with
      | nil => exact ⟨[], by simp⟩
      | cons p ps =>
        refine ⟨sep ++ List.intercalate sep (p :: ps), ?_⟩
        rw [List.singleton_append, intercalate_cons_cons sep x (p :: ps) (by simp)]
        simp [List.intercalate, List.append_assoc]
    | cons y mid'' =>
      obtain ⟨t, ht⟩ := ih
      refine ⟨t, ?_⟩
      rw [List.cons_append, intercalate_cons_cons sep x ((y :: mid'') ++ post) (by simp),
        intercalate_cons_cons sep x (y :: mid'') (by simp), ht]
      simp [List.append_assoc]

theorem intercalate_suffix (sep : Str) (pre mid : List Str) :
    ∃ t, List.intercalate sep (pre ++ mid) = t ++ List.intercalate sep mid := by
  induction pre with
  | nil => exact ⟨[], by simp⟩
  | cons x pre' ih =>
    obtain ⟨t, ht⟩ := ih
    cases hq : pre' ++ mid with
    | nil =>
      have hm : mid = [] := (List.append_eq_nil.mp hq).2
      refine ⟨x, ?_⟩
      rw [List.cons_append, hq, hm]
      simp [List.intercalate]
    | cons z zs =>
      refine ⟨x ++ sep ++ t, ?_⟩
      rw [List.cons_append, intercalate_cons_cons sep x (pre' ++ mid) (by rw [hq]; simp), ht]
      simp [List.append_assoc]

theorem encode_contains_key_block (q : UrlValues) (k : Str) (hk : k ∈ q.map Prod.fst) :
    List.intercalate ['&'] ((urlValuesGet q k).map
        (fun v => queryEscape k ++ '=' :: queryEscape v))
      <:+: urlValuesEncode q := by
  have hk2 : k ∈ sortStrings (q.map Prod.fst) := ((sortStrings_perm _).mem_iff).mpr hk
  obtain ⟨pre, post, hs⟩ := List.append_of_mem hk2
  unfold urlValuesEncode
  rw [hs, List.map_append, List.map_cons, List.flatten_append, List.flatten_cons]
  obtain ⟨t1, ht1⟩ := intercalate_suffix ['&']
    ((pre.map (fun k' => (urlValuesGet q k').map
      (fun v => queryEscape k' ++ '=' :: queryEscape v))).flatten)
    (((urlValuesGet q k).map (fun v => queryEscape k ++ '=' :: queryEscape v)) ++
      (post.map (fun k' => (urlValuesGet q k').map
        (fun v => queryEscape k' ++ '=' :: queryEscape v))).flatten)
  obtain ⟨t2, ht2⟩ := intercalate_prefix ['&']
    ((urlValuesGet q k).map (fun v => queryEscape k ++ '=' :: queryEscape v))
    ((post.map (fun k' => (urlValuesGet q k').map
      (fun v => queryEscape k' ++ '=' :: queryEscape v))).flatten)
  refine ⟨t1, t2, ?_⟩
  rw [ht1, ht2]
  simp [List.append_assoc]

/-- C9: in every generated client method, a sequence-valued optional query
field that is set contributes one `Add` per element under the parameter's
declared wire name, so the ordered query collection holds exactly the
sequence's elements, in insertion order (all eleven sequence-valued fields
across `GetKeyword`, `GetRevisions` and `GetLaws`; `GetAttachment`,
`GetLawData` and `GetLawFile` have no sequence-valued fields); in the
encoded query string the pairs of any present key appear contiguously with
its values in that same order; and concretely a `GetKeyword` call with only
`keyword = "k"` and `law_type = ["a", "b"]` set encodes to
`keyword=k&law_type=a&law_type=b`, which contains `law_type=a&law_type=b`. -/
theorem C9_repeated_query_keys :
    (∀ (p : GetKeywordParams) (l : List Str), p.lawType = some l →
        urlValuesGet (getKeywordQuery p) ("law_type".data) = l) ∧
    (∀ (p : GetKeywordParams) (l : List Str), p.categoryCd = some l →
        urlValuesGet (getKeywordQuery p) ("category_cd".data) = l) ∧
    (∀ (p : GetRevisionsParams) (l : List Str), p.amendmentType = some l →
        urlValuesGet (getRevisionsQuery p) ("amendment_type".data) = l) ∧
    (∀ (p : GetRevisionsParams) (l : List Str), p.categoryCd = some l →
        urlValuesGet (getRevisionsQuery p) ("category_cd".data) = l) ∧
    (∀ (p : GetRevisionsParams) (l : List Str), p.currentRevisionStatus = some l →
        urlValuesGet (getRevisionsQuery p) ("current_revision_status".data) = l) ∧
    (∀ (p : GetRevisionsParams) (l : List Str), p.mission = some l →
        urlValuesGet (getRevisionsQuery p) ("mission".data) = l) ∧
    (∀ (p : GetRevisionsParams) (l : List Str), p.repealStatus = some l →
        urlValuesGet (getRevisionsQuery p) ("repeal_status".data) = l) ∧
    (∀ (p : GetLawsParams) (l : List Str), p.lawType = some l →
        urlValuesGet (getLawsQuery p) ("law_type".data) = l) ∧
    (∀ (p : GetLawsParams) (l : List Str), p.categoryCd = some l →
        urlValuesGet (getLawsQuery p) ("category_cd".data) = l) ∧
    (∀ (p : GetLawsParams) (l : List Str), p.mission = some l →
        urlValuesGet (getLawsQuery p) ("mission".data) = l) ∧
    (∀ (p : GetLawsParams) (l : List Str), p.repealStatus = some l →
        urlValuesGet (getLawsQuery p) ("repeal_status".data) = l) ∧
    (∀ (q : UrlValues) (k : Str), k ∈ q.map Prod.fst →
        List.intercalate ['&'] ((urlValuesGet q k).map
          (fun v => queryEscape k ++ '=' :: queryEscape v)) <:+: urlValuesEncode q) ∧
    urlValuesEncode (getKeywordQuery ⟨"k".data, none, none, none, none, none,
        some ["a".data, "b".data], none, none, none, none, none, none, none, none,
        none, none, none⟩) = "keyword=k&law_type=a&law_type=b".data ∧
    ("law_type=a&law_type=b".data) <:+:
      urlValuesEncode (getKeywordQuery ⟨"k".data, none, none, none, none, none,
        some ["a".data, "b".data], none, none, none, none, none, none, none, none,
        none, none, none⟩) :=
  ⟨getKeywordQuery_law_type, getKeywordQuery_category_cd,
    getRevisionsQuery_amendment_type, getRevisionsQuery_category_cd,
    getRevisionsQuery_current_revision_status, getRevisionsQuery_mission,
    getRevisionsQuery_repeal_status, getLawsQuery_law_type, getLawsQuery_category_cd,
    getLawsQuery_mission, getLawsQuery_repeal_status,
    encode_contains_key_block, by decide, by decide⟩

/-- C9 witness: a concrete `GetKeyword` parameter struct with
`law_type = ["a", "b"]` set stores exactly those two values, in order,
under the `law_type` wire key. -/
theorem C9_repeated_query_keys_witness :
    urlValuesGet (getKeywordQuery ⟨"k".data, none, none, none, none, none,
        some ["a".data, "b".data], none, none, none, none, none, none, none, none,
        none, none, none⟩) ("law_type".data) = ["a".data, "b".data] :=
  C9_repeated_query_keys.1 _ _ rfl
